import Mathlib

/-!
Shallow embedding of the GreenCart Logistics simulation engine
(src/backend/backend/utils/simulationEngine.js and the Route model methods
in src/backend/backend/utils/dataSeeder.js), with theorems checking the
specification's claims about it.

JavaScript numbers are embedded as exact rationals (ℚ); `Math.ceil` is
`Int.ceil` and `Math.round` is `⌊x + 1/2⌋` (JS rounds halves toward +∞).
-/

namespace GreenCart

/-- Traffic level of a route: enum ['Low', 'Medium', 'High'] in the Route schema. -/
inductive TrafficLevel where
  | Low
  | Medium
  | High
deriving DecidableEq, Repr

/-- Route record (Route schema in dataSeeder.js: routeId unique, distanceKm ≥ 0,
trafficLevel enum, baseTimeMin ≥ 0). -/
structure Route where
  routeId : Nat
  distanceKm : ℚ
  trafficLevel : TrafficLevel
  baseTimeMin : ℚ
deriving DecidableEq, Repr

/-- Order record. `deliveryTimeMin` models the result of the document method
`order.getDeliveryTimeInMinutes()` (models/Order.js is not part of the engine
sources; per the spec, `deliveryTime` is a wall-clock "HH:MM" used only as a
sort tie-break, so we carry its minutes-of-day value directly). -/
structure Order where
  orderId : Nat
  valueRs : ℚ
  routeId : Nat
  deliveryTimeMin : ℚ
deriving DecidableEq, Repr

/-- Driver record. `isFatigued` models the result of the document method
`driver.isFatigued()` (models/Driver.js is not part of the engine sources;
per the spec, fatigued = pastWeekHours[last] > 8, computed once at planning
start). -/
structure Driver where
  id : Nat
  name : String
  isFatigued : Bool
deriving DecidableEq, Repr

/-- The route lookup: `routeMap` is built by `routes.forEach(route =>
routeMap.set(route.routeId, route))`; lookup by routeId. Route ids are unique
per the schema, so first-match lookup models `Map.get`. -/
def findRoute (routes : List Route) (rid : Nat) : Option Route :=
  routes.find? (fun r => r.routeId = rid)

/-- trafficMultiplier from `routeSchema.methods.getExpectedTime`:
Low 1, Medium 1.2, High 1.5. -/
def trafficMultiplier : TrafficLevel → ℚ
  | .Low => 1
  | .Medium => 6/5
  | .High => 3/2

/-- `routeSchema.methods.getExpectedTime`: Math.ceil(baseTimeMin × multiplier). -/
def Route.getExpectedTime (r : Route) : ℤ :=
  ⌈r.baseTimeMin * trafficMultiplier r.trafficLevel⌉

/-- `routeSchema.methods.calculateFuelCost` / `SimulationEngine.calculateFuelCost`:
distanceKm × 5, plus distanceKm × 2 surcharge when traffic is High. -/
def calculateFuelCost (r : Route) : ℚ :=
  let cost := r.distanceKm * 5
  if r.trafficLevel = .High then cost + r.distanceKm * 2 else cost

/-- `SimulationEngine.calculateOrderTime`: starts from the route's
(already-ceiled) expected time, multiplies by 1.3 when fatigued, then
Math.ceil again. -/
def calculateOrderTime (r : Route) (isFatigued : Bool) : ℤ :=
  let baseTime : ℚ := (r.getExpectedTime : ℚ)
  let baseTime := if isFatigued then baseTime * (13/10) else baseTime
  ⌈baseTime⌉

/-- `SimulationEngine.isOrderLate`: expected execution time exceeds
baseTimeMin + 10 (the order argument is unused by the source body). -/
def isOrderLate (r : Route) (isFatigued : Bool) : Bool :=
  (calculateOrderTime r isFatigued : ℚ) > r.baseTimeMin + 10

/-- An order as committed into an assignment: `{...order.toObject(),
estimatedTime, isLate}`. -/
structure AssignedOrder where
  ord : Order
  estimatedTime : ℤ
  isLate : Bool
deriving DecidableEq, Repr

/-- Per-driver assignment state built by `optimizeOrderAssignment`. -/
structure Assignment where
  driverId : Nat
  driverName : String
  assignedOrders : List AssignedOrder
  totalHours : ℚ
  isFatigued : Bool
deriving DecidableEq, Repr

/-- `SimulationEngine.calculateAssignmentScore`: base 100, −30 if fatigued,
−2 × totalHours, +20 if valueRs > 1000, −10 High / −5 Medium traffic. -/
def calculateAssignmentScore (a : Assignment) (o : Order) (r : Route) : ℚ :=
  let score : ℚ := 100
  let score := if a.isFatigued then score - 30 else score
  let score := score - a.totalHours * 2
  let score := if o.valueRs > 1000 then score + 20 else score
  let score :=
    if r.trafficLevel = .High then score - 10
    else if r.trafficLevel = .Medium then score - 5
    else score
  score

/-- The JS sort comparator on orders returns a negative number exactly when
`a` must come strictly before `b`: descending valueRs, then ascending
delivery-time minutes. -/
def orderBefore (a b : Order) : Bool :=
  if a.valueRs ≠ b.valueRs then b.valueRs < a.valueRs
  else a.deliveryTimeMin < b.deliveryTimeMin

/-- Stable insertion of an order into an already-sorted list: placed before
the first element it strictly precedes (ties keep existing elements first,
matching the stable `Array.prototype.sort`). -/
def insertOrder (x : Order) : List Order → List Order
  | [] => [x]
  | y :: ys => if orderBefore x y then x :: y :: ys else y :: insertOrder x ys

/-- The stable sort `orders.sort((a, b) => ...)` performed (in place) by
`optimizeOrderAssignment`. -/
def sortOrders : List Order → List Order
  | [] => []
  | x :: xs => insertOrder x (sortOrders xs)

/-- The ':'-separated fields of a character list: the semantics of the JS
`timeStr.split(':')` call. -/
def splitColonAux : List Char → List Char → List (List Char)
  | [], acc => [acc.reverse]
  | c :: cs, acc =>
    if c = ':' then acc.reverse :: splitColonAux cs []
    else splitColonAux cs (c :: acc)

/-- JS `Number(field)` on a split field, restricted to nonnegative decimal
digit strings (the well-formed "HH"/"MM" case); any other field yields NaN
in JS, embedded as `none`. -/
def parseNatDigits : List Char → Option Nat
  | [] => none
  | cs =>
    if cs.all Char.isDigit then
      some (cs.foldl (fun n c => n * 10 + (c.toNat - 48)) 0)
    else none

/-- `SimulationEngine.timeToMinutes`: split "HH:MM" on ':', map Number,
hours×60+minutes. A malformed string yields NaN in JS; we return `none` in
that case (the planner never reads the value). -/
def timeToMinutes (timeStr : String) : Option ℚ := do
  let parts := splitColonAux timeStr.data []
  let h ← (parts.get? 0).bind parseNatDigits
  let m ← (parts.get? 1).bind parseNatDigits
  pure ((h : ℚ) * 60 + m)

/-- One step of the inner `for (let i = 0; ...)` scan over assignments:
skip drivers without capacity, otherwise keep the strictly best score seen
so far (first maximum wins). `i` is the index of the head of `l`. -/
def findBestAux (o : Order) (r : Route) (maxH : ℚ) :
    List Assignment → Nat → Option Nat → ℚ → Option Nat
  | [], _, best, _ => best
  | a :: rest, i, best, bestScore =>
    let orderTime := calculateOrderTime r a.isFatigued
    if a.totalHours + (orderTime : ℚ) / 60 > maxH then
      findBestAux o r maxH rest (i + 1) best bestScore
    else
      let score := calculateAssignmentScore a o r
      if score > bestScore then findBestAux o r maxH rest (i + 1) (some i) score
      else findBestAux o r maxH rest (i + 1) best bestScore

/-- The full scan: bestDriverIndex = −1 and bestScore = −1 initially; the
result is `none` exactly when the loop ends with bestDriverIndex = −1. -/
def findBestDriver (assignments : List Assignment) (o : Order) (r : Route)
    (maxH : ℚ) : Option Nat :=
  findBestAux o r maxH assignments 0 none (-1)

/-- In-place update of element `i` of the assignments array. -/
def updateAt {α : Type} (i : Nat) (f : α → α) : List α → List α
  | [] => []
  | x :: xs =>
    match i with
    | 0 => f x :: xs
    | n + 1 => x :: updateAt n f xs

/-- Committing an order to the chosen driver: append order + estimated time +
lateness, add orderTime/60 to totalHours. -/
def commitOrder (o : Order) (r : Route) (a : Assignment) : Assignment :=
  let orderTime := calculateOrderTime r a.isFatigued
  { a with
    assignedOrders :=
      a.assignedOrders ++ [⟨o, orderTime, isOrderLate r a.isFatigued⟩],
    totalHours := a.totalHours + (orderTime : ℚ) / 60 }

/-- Body of the `for (const order of sortedOrders)` loop: skip orders with a
dangling route, otherwise commit to the best feasible driver if any. -/
def assignOrder (routes : List Route) (maxH : ℚ)
    (assignments : List Assignment) (o : Order) : List Assignment :=
  match findRoute routes o.routeId with
  | none => assignments
  | some r =>
    match findBestDriver assignments o r maxH with
    | none => assignments
    | some i => updateAt i (commitOrder o r) assignments

/-- The fresh per-driver assignment record created at the start of
`optimizeOrderAssignment`. -/
def initAssignment (d : Driver) : Assignment :=
  { driverId := d.id, driverName := d.name, assignedOrders := [],
    totalHours := 0, isFatigued := d.isFatigued }

/-- `SimulationEngine.optimizeOrderAssignment`. `startTime` is converted to
minutes (`startTimeMinutes`) but that value is never read afterwards, exactly
as in the source. -/
def optimizeOrderAssignment (drivers : List Driver) (orders : List Order)
    (routes : List Route) (startTime : String) (maxHoursPerDriver : ℚ) :
    List Assignment :=
  let assignments := drivers.map initAssignment
  let sortedOrders := sortOrders orders
  let _startTimeMinutes := timeToMinutes startTime
  sortedOrders.foldl (assignOrder routes maxHoursPerDriver) assignments

/-- The array the caller's `orders` variable holds after
`optimizeOrderAssignment` returns: `Array.prototype.sort` reorders it in
place. -/
def ordersAfterPlanning (orders : List Order) : List Order :=
  sortOrders orders

/-- JS `Math.round`: halves round toward +∞. -/
def jsRound (x : ℚ) : ℤ := ⌊x + 1/2⌋

/-- Running accumulator of `calculateKPIs` (full precision, before the final
roundings). -/
structure KPIAcc where
  totalProfit : ℚ
  totalFuelCost : ℚ
  onTimeDeliveries : Nat
  lateDeliveries : Nat
  totalDeliveries : Nat
  lowTraffic : ℚ
  mediumTraffic : ℚ
  highTraffic : ℚ
deriving DecidableEq, Repr

def KPIAcc.init : KPIAcc := ⟨0, 0, 0, 0, 0, 0, 0, 0⟩

/-- Body of the inner loop of `calculateKPIs` for one committed order:
skip if the route is absent; apply the late penalty or on-time bonus;
subtract fuel cost; bucket the fuel cost by traffic tier; clamp the order's
profit at 0 before accumulating. -/
def processOrder (routes : List Route) (acc : KPIAcc) (ao : AssignedOrder) :
    KPIAcc :=
  match findRoute routes ao.ord.routeId with
  | none => acc
  | some r =>
    let orderProfit := ao.ord.valueRs
    let (orderProfit, onTime, late) :=
      if ao.isLate then
        (orderProfit - 50, acc.onTimeDeliveries, acc.lateDeliveries + 1)
      else
        (if ao.ord.valueRs > 1000 then
           orderProfit + ao.ord.valueRs * (1/10)
         else orderProfit,
         acc.onTimeDeliveries + 1, acc.lateDeliveries)
    let fuelCost := calculateFuelCost r
    let orderProfit := orderProfit - fuelCost
    { totalProfit := acc.totalProfit + max 0 orderProfit,
      totalFuelCost := acc.totalFuelCost + fuelCost,
      onTimeDeliveries := onTime,
      lateDeliveries := late,
      totalDeliveries := acc.totalDeliveries + 1,
      lowTraffic :=
        acc.lowTraffic + (if r.trafficLevel = .Low then fuelCost else 0),
      mediumTraffic :=
        acc.mediumTraffic + (if r.trafficLevel = .Medium then fuelCost else 0),
      highTraffic :=
        acc.highTraffic + (if r.trafficLevel = .High then fuelCost else 0) }

/-- The nested `for (const assignment ...) for (const order ...)` loops of
`calculateKPIs`, at full precision. -/
def aggregateKPIs (assignments : List Assignment) (routes : List Route) :
    KPIAcc :=
  assignments.foldl
    (fun acc a => a.assignedOrders.foldl (processOrder routes) acc)
    KPIAcc.init

/-- The reported KPI record (after the final roundings). -/
structure KPIResult where
  totalProfit : ℤ
  efficiencyScore : ℚ
  onTimeDeliveries : Nat
  lateDeliveries : Nat
  totalDeliveries : Nat
  totalFuelCost : ℤ
  lowTraffic : ℤ
  mediumTraffic : ℤ
  highTraffic : ℤ
deriving DecidableEq, Repr

/-- `SimulationEngine.calculateKPIs`: aggregate, compute the efficiency
score (0 when there are no deliveries), round the profit and fuel sums to
whole units and the efficiency score to 2 decimals. -/
def calculateKPIs (assignments : List Assignment) (routes : List Route) :
    KPIResult :=
  let acc := aggregateKPIs assignments routes
  let efficiencyScore : ℚ :=
    if acc.totalDeliveries > 0 then
      ((acc.onTimeDeliveries : ℚ) / (acc.totalDeliveries : ℚ)) * 100
    else 0
  { totalProfit := jsRound acc.totalProfit,
    efficiencyScore := (jsRound (efficiencyScore * 100) : ℚ) / 100,
    onTimeDeliveries := acc.onTimeDeliveries,
    lateDeliveries := acc.lateDeliveries,
    totalDeliveries := acc.totalDeliveries,
    totalFuelCost := jsRound acc.totalFuelCost,
    lowTraffic := jsRound acc.lowTraffic,
    mediumTraffic := jsRound acc.mediumTraffic,
    highTraffic := jsRound acc.highTraffic }

/-- Simulation request inputs (shape pre-validated upstream). -/
structure SimInputs where
  numberOfDrivers : Nat
  startTime : String
  maxHoursPerDriver : ℚ
deriving Repr

/-- The one fatal error the engine raises. -/
inductive SimError where
  | insufficientDrivers (available requested : Nat)
deriving DecidableEq, Repr

/-- `SimulationEngine.runSimulation`, with the Entity Store snapshot passed
explicitly: `availableDrivers` is the result of
`Driver.find({isAvailable: true}).sort(...)` before the limit is applied;
the engine takes the first `numberOfDrivers` of them and fails if fewer
exist. -/
def runSimulation (availableDrivers : List Driver) (pendingOrders : List Order)
    (routes : List Route) (inputs : SimInputs) :
    Except SimError (List Assignment × KPIResult) :=
  let drivers := availableDrivers.take inputs.numberOfDrivers
  if drivers.length < inputs.numberOfDrivers then
    .error (.insufficientDrivers drivers.length inputs.numberOfDrivers)
  else
    let assignments := optimizeOrderAssignment drivers pendingOrders routes
      inputs.startTime inputs.maxHoursPerDriver
    .ok (assignments, calculateKPIs assignments routes)

/-- Total number of orders committed across all assignments. -/
def sumAssigned (assignments : List Assignment) : Nat :=
  (assignments.map (fun a => a.assignedOrders.length)).sum

/-- Well-formedness of a shift-start string: `timeToMinutes` parses it
(JS would produce a non-NaN minutes value). -/
def ValidTimeString (s : String) : Prop := (timeToMinutes s).isSome

/-! ### General helper lemmas -/

theorem foldl_preserve {α β : Type} {f : α → β → α} {P : α → Prop}
    (hf : ∀ s x, P s → P (f s x)) : ∀ (l : List β) (s : α), P s → P (l.foldl f s)
  | [], _, hs => hs
  | x :: xs, s, hs => foldl_preserve hf xs (f s x) (hf s x hs)

theorem insertOrder_perm (x : Order) (l : List Order) :
    (insertOrder x l).Perm (x :: l) := by
  induction l with
  | nil => simp [insertOrder]
  | cons y ys ih =>
    by_cases h : orderBefore x y
    · simp [insertOrder, h]
    · simp only [insertOrder, h, if_neg, Bool.false_eq_true, if_false]
      exact (ih.cons y).trans (List.Perm.swap x y ys)

theorem sortOrders_perm (l : List Order) : (sortOrders l).Perm l := by
  induction l with
  | nil => simp [sortOrders]
  | cons x xs ih =>
    exact (insertOrder_perm x (sortOrders xs)).trans (ih.cons x)

theorem sortOrders_length (l : List Order) :
    (sortOrders l).length = l.length :=
  (sortOrders_perm l).length_eq

theorem updateAt_length {α : Type} (i : Nat) (f : α → α) (l : List α) :
    (updateAt i f l).length = l.length := by
  induction l generalizing i with
  | nil => simp [updateAt]
  | cons x xs ih =>
    cases i with
    | zero => rfl
    | succ n => simp [updateAt, ih]

theorem mem_updateAt {α : Type} {i : Nat} {f : α → α} {l : List α} {b : α}
    (hb : b ∈ updateAt i f l) :
    b ∈ l ∨ ∃ h : i < l.length, b = f (l.get ⟨i, h⟩) := by
  induction l generalizing i with
  | nil => simp [updateAt] at hb
  | cons x xs ih =>
    cases i with
    | zero =>
      simp only [updateAt, List.mem_cons] at hb
      rcases hb with hb | hb
      · exact Or.inr ⟨Nat.succ_pos _, hb⟩
      · exact Or.inl (List.mem_cons_of_mem _ hb)
    | succ n =>
      simp only [updateAt, List.mem_cons] at hb
      rcases hb with hb | hb
      · exact Or.inl (hb ▸ List.mem_cons_self x xs)
      · rcases ih hb with h | ⟨hlt, he⟩
        · exact Or.inl (List.mem_cons_of_mem _ h)
        · exact Or.inr ⟨Nat.succ_lt_succ hlt, he⟩

theorem updateAt_map_eq {α β : Type} (g : α → β) (f : α → α)
    (hfg : ∀ a, g (f a) = g a) (i : Nat) (l : List α) :
    (updateAt i f l).map g = l.map g := by
  induction l generalizing i with
  | nil => simp [updateAt]
  | cons x xs ih =>
    cases i with
    | zero => simp [updateAt, hfg]
    | succ n => simp [updateAt, ih]

theorem sum_map_updateAt_le {α : Type} (g : α → Nat) (f : α → α)
    (hfg : ∀ a, g (f a) ≤ g a + 1) (i : Nat) (l : List α) :
    ((updateAt i f l).map g).sum ≤ (l.map g).sum + 1 := by
  induction l generalizing i with
  | nil => simp [updateAt]
  | cons x xs ih =>
    cases i with
    | zero =>
      simp only [updateAt, List.map_cons, List.sum_cons]
      have := hfg x
      omega
    | succ n =>
      simp only [updateAt, List.map_cons, List.sum_cons]
      have := ih n
      omega

theorem sum_map_updateAt_eq {α : Type} (g : α → Nat) (f : α → α)
    (hfg : ∀ a, g (f a) = g a + 1) {i : Nat} {l : List α} (hi : i < l.length) :
    ((updateAt i f l).map g).sum = (l.map g).sum + 1 := by
  induction l generalizing i with
  | nil => simp at hi
  | cons x xs ih =>
    cases i with
    | zero =>
      simp only [updateAt, List.map_cons, List.sum_cons, hfg x]
      omega
    | succ n =>
      simp only [updateAt, List.map_cons, List.sum_cons]
      have := ih (Nat.lt_of_succ_lt_succ hi)
      omega

/-! ### Planner scan lemmas -/

/-- The capacity check of the inner loop: driver `a` can still take this
order. -/
def passesCheck (r : Route) (maxH : ℚ) (a : Assignment) : Prop :=
  a.totalHours + (calculateOrderTime r a.isFatigued : ℚ) / 60 ≤ maxH

theorem findBestAux_some {o : Order} {r : Route} {maxH : ℚ} :
    ∀ {l : List Assignment} {i : Nat} {best : Option Nat} {bs : ℚ} {j : Nat},
      findBestAux o r maxH l i best bs = some j →
      best = some j ∨
        ∃ k, ∃ hk : k < l.length, j = i + k ∧ passesCheck r maxH (l.get ⟨k, hk⟩) := by
  intro l
  induction l with
  | nil => intro i best bs j h; exact Or.inl h
  | cons a rest ih =>
    intro i best bs j h
    simp only [findBestAux] at h
    by_cases hc : a.totalHours + (calculateOrderTime r a.isFatigued : ℚ) / 60 > maxH
    · rw [if_pos hc] at h
      rcases ih h with hb | ⟨k, hk, hj, hp⟩
      · exact Or.inl hb
      · exact Or.inr ⟨k + 1, Nat.succ_lt_succ hk, by omega, hp⟩
    · rw [if_neg hc] at h
      by_cases hs : calculateAssignmentScore a o r > bs
      · rw [if_pos hs] at h
        rcases ih h with hb | ⟨k, hk, hj, hp⟩
        · have hij : i = j := Option.some.inj hb
          exact Or.inr ⟨0, Nat.succ_pos _, by omega, by
            simpa [passesCheck] using le_of_not_lt hc⟩
        · exact Or.inr ⟨k + 1, Nat.succ_lt_succ hk, by omega, hp⟩
      · rw [if_neg hs] at h
        rcases ih h with hb | ⟨k, hk, hj, hp⟩
        · exact Or.inl hb
        · exact Or.inr ⟨k + 1, Nat.succ_lt_succ hk, by omega, hp⟩

theorem findBestAux_isSome_of_some {o : Order} {r : Route} {maxH : ℚ} :
    ∀ {l : List Assignment} {i : Nat} {j : Nat} {bs : ℚ},
      (findBestAux o r maxH l i (some j) bs).isSome := by
  intro l
  induction l with
  | nil => intro i j bs; rfl
  | cons a rest ih =>
    intro i j bs
    simp only [findBestAux]
    by_cases hc : a.totalHours + (calculateOrderTime r a.isFatigued : ℚ) / 60 > maxH
    · rw [if_pos hc]; exact ih
    · rw [if_neg hc]
      by_cases hs : calculateAssignmentScore a o r > bs
      · rw [if_pos hs]; exact ih
      · rw [if_neg hs]; exact ih

theorem findBestAux_isSome {o : Order} {r : Route} {maxH : ℚ} :
    ∀ {l : List Assignment} {i : Nat} {best : Option Nat} {bs : ℚ},
      (best = none → bs = -1) →
      (∃ a ∈ l, passesCheck r maxH a ∧ -1 < calculateAssignmentScore a o r) →
      (findBestAux o r maxH l i best bs).isSome := by
  intro l
  induction l with
  | nil =>
    intro i best bs _ hex
    simp at hex
  | cons a rest ih =>
    intro i best bs hbs hex
    simp only [findBestAux]
    by_cases hc : a.totalHours + (calculateOrderTime r a.isFatigued : ℚ) / 60 > maxH
    · rw [if_pos hc]
      refine ih hbs ?_
      rcases hex with ⟨x, hx, hpass, hscore⟩
      rcases List.mem_cons.1 hx with rfl | hx
      · exact absurd hpass (by simpa [passesCheck] using hc)
      · exact ⟨x, hx, hpass, hscore⟩
    · rw [if_neg hc]
      by_cases hs : calculateAssignmentScore a o r > bs
      · rw [if_pos hs]; exact findBestAux_isSome_of_some
      · rw [if_neg hs]
        cases best with
        | some j => exact findBestAux_isSome_of_some
        | none =>
          have hbs1 : bs = -1 := hbs rfl
          rcases hex with ⟨x, hx, hpass, hscore⟩
          rcases List.mem_cons.1 hx with rfl | hx
          · exact absurd (show bs < calculateAssignmentScore x o r by
              rw [hbs1]; exact hscore) hs
          · exact ih (fun _ => hbs1) ⟨x, hx, hpass, hscore⟩

/-! ### Timing and score bounds -/

theorem trafficMultiplier_pos (t : TrafficLevel) : 0 < trafficMultiplier t := by
  cases t <;> norm_num [trafficMultiplier]

theorem getExpectedTime_nonneg {r : Route} (h : 0 ≤ r.baseTimeMin) :
    0 ≤ r.getExpectedTime := by
  unfold Route.getExpectedTime
  exact Int.ceil_nonneg (mul_nonneg h (trafficMultiplier_pos r.trafficLevel).le)

theorem calculateOrderTime_nonneg {r : Route} (h : 0 ≤ r.baseTimeMin)
    (fat : Bool) : 0 ≤ calculateOrderTime r fat := by
  unfold calculateOrderTime
  have h0 : (0 : ℚ) ≤ (r.getExpectedTime : ℚ) := by
    exact_mod_cast getExpectedTime_nonneg h
  cases fat with
  | false => simpa using Int.ceil_nonneg h0
  | true =>
    simp only [if_true]
    exact Int.ceil_nonneg (by positivity)

theorem score_gt_neg_one {a : Assignment} {o : Order} {r : Route}
    (hH : a.totalHours ≤ 24) : -1 < calculateAssignmentScore a o r := by
  unfold calculateAssignmentScore
  split_ifs <;> dsimp only [] <;> linarith

/-! ### C5: the per-driver hour bound is preserved -/

theorem commitOrder_totalHours {o : Order} {r : Route} {maxH : ℚ}
    {a : Assignment} (h : passesCheck r maxH a) :
    (commitOrder o r a).totalHours ≤ maxH := h

theorem assignOrder_hours {routes : List Route} {maxH : ℚ}
    {s : List Assignment} {o : Order}
    (hs : ∀ a ∈ s, a.totalHours ≤ maxH) :
    ∀ a ∈ assignOrder routes maxH s o, a.totalHours ≤ maxH := by
  intro b hb
  unfold assignOrder at hb
  cases hroute : findRoute routes o.routeId with
  | none => simp only [hroute] at hb; exact hs b hb
  | some r =>
    simp only [hroute] at hb
    cases hbest : findBestDriver s o r maxH with
    | none => simp only [hbest] at hb; exact hs b hb
    | some i =>
      simp only [hbest] at hb
      rcases mem_updateAt hb with hbl | ⟨hi, rfl⟩
      · exact hs b hbl
      · rcases findBestAux_some hbest with hnone | ⟨k, hk, hik, hp⟩
        · exact absurd hnone (by simp)
        · have hki : k = i := by omega
          subst hki
          exact commitOrder_totalHours hp

theorem optimizeOrderAssignment_hours {drivers : List Driver}
    {orders : List Order} {routes : List Route} {startTime : String}
    {maxH : ℚ} (hmax : 0 ≤ maxH) :
    ∀ a ∈ optimizeOrderAssignment drivers orders routes startTime maxH,
      a.totalHours ≤ maxH := by
  unfold optimizeOrderAssignment
  refine foldl_preserve
    (P := fun (s : List Assignment) => ∀ a ∈ s, a.totalHours ≤ maxH)
    (fun s o hP => assignOrder_hours hP) _ _ ?_
  intro a ha
  rcases List.mem_map.1 ha with ⟨d, _, rfl⟩
  simpa [initAssignment] using hmax

/-! ### KPI aggregation lemmas -/

theorem processOrder_counts {routes : List Route} {acc : KPIAcc}
    {ao : AssignedOrder}
    (h : acc.onTimeDeliveries + acc.lateDeliveries = acc.totalDeliveries) :
    (processOrder routes acc ao).onTimeDeliveries
      + (processOrder routes acc ao).lateDeliveries
      = (processOrder routes acc ao).totalDeliveries := by
  cases hfr : findRoute routes ao.ord.routeId with
  | none => simpa [processOrder, hfr] using h
  | some r =>
    by_cases hl : ao.isLate <;> simp [processOrder, hfr, hl] <;> omega

theorem aggregateKPIs_counts (assignments : List Assignment)
    (routes : List Route) :
    (aggregateKPIs assignments routes).onTimeDeliveries
      + (aggregateKPIs assignments routes).lateDeliveries
      = (aggregateKPIs assignments routes).totalDeliveries := by
  unfold aggregateKPIs
  refine foldl_preserve
    (P := fun (acc : KPIAcc) =>
      acc.onTimeDeliveries + acc.lateDeliveries = acc.totalDeliveries)
    ?_ _ _ rfl
  intro acc a hacc
  exact foldl_preserve
    (P := fun (acc : KPIAcc) =>
      acc.onTimeDeliveries + acc.lateDeliveries = acc.totalDeliveries)
    (fun acc' ao h => processOrder_counts h) _ _ hacc

theorem processOrder_total_le (routes : List Route) (acc : KPIAcc)
    (ao : AssignedOrder) :
    (processOrder routes acc ao).totalDeliveries ≤ acc.totalDeliveries + 1 := by
  cases hfr : findRoute routes ao.ord.routeId with
  | none => simp [processOrder, hfr]
  | some r => by_cases hl : ao.isLate <;> simp [processOrder, hfr, hl]

theorem foldl_processOrder_total_le (routes : List Route) :
    ∀ (l : List AssignedOrder) (acc : KPIAcc),
      (l.foldl (processOrder routes) acc).totalDeliveries
        ≤ acc.totalDeliveries + l.length := by
  intro l
  induction l with
  | nil => intro acc; simp
  | cons ao rest ih =>
    intro acc
    have h1 := ih (processOrder routes acc ao)
    have h2 := processOrder_total_le routes acc ao
    simp only [List.foldl_cons, List.length_cons]
    omega

theorem aggregateKPIs_total_le_sumAssigned (assignments : List Assignment)
    (routes : List Route) :
    (aggregateKPIs assignments routes).totalDeliveries
      ≤ sumAssigned assignments := by
  unfold aggregateKPIs sumAssigned
  suffices h : ∀ (l : List Assignment) (acc : KPIAcc),
      (l.foldl (fun acc a => a.assignedOrders.foldl (processOrder routes) acc)
        acc).totalDeliveries
        ≤ acc.totalDeliveries + (l.map (fun a => a.assignedOrders.length)).sum by
    simpa [KPIAcc.init] using h assignments KPIAcc.init
  intro l
  induction l with
  | nil => intro acc; simp
  | cons a rest ih =>
    intro acc
    have h1 := ih (a.assignedOrders.foldl (processOrder routes) acc)
    have h2 := foldl_processOrder_total_le routes
      a.assignedOrders acc
    simp only [List.foldl_cons, List.map_cons, List.sum_cons]
    omega

/-! ### The planner commits at most one order per input order -/

theorem commitOrder_length (o : Order) (r : Route) (a : Assignment) :
    (commitOrder o r a).assignedOrders.length
      = a.assignedOrders.length + 1 := by
  simp [commitOrder]

theorem assignOrder_sumAssigned_le (routes : List Route) (maxH : ℚ)
    (s : List Assignment) (o : Order) :
    sumAssigned (assignOrder routes maxH s o) ≤ sumAssigned s + 1 := by
  cases hfr : findRoute routes o.routeId with
  | none => simp [assignOrder, hfr]
  | some r =>
    cases hbest : findBestDriver s o r maxH with
    | none => simp [assignOrder, hfr, hbest]
    | some i =>
      simp only [assignOrder, hfr, hbest, sumAssigned]
      exact sum_map_updateAt_le _ _
        (fun a => by simp [commitOrder_length]) i s

theorem foldl_assignOrder_sumAssigned (routes : List Route) (maxH : ℚ) :
    ∀ (l : List Order) (s : List Assignment),
      sumAssigned (l.foldl (assignOrder routes maxH) s)
        ≤ sumAssigned s + l.length := by
  intro l
  induction l with
  | nil => intro s; simp
  | cons o rest ih =>
    intro s
    have h1 := ih (assignOrder routes maxH s o)
    have h2 := assignOrder_sumAssigned_le routes maxH s o
    simp only [List.foldl_cons, List.length_cons]
    omega

theorem sumAssigned_map_initAssignment (drivers : List Driver) :
    sumAssigned (drivers.map initAssignment) = 0 := by
  unfold sumAssigned
  induction drivers with
  | nil => rfl
  | cons d rest ih => simpa [initAssignment] using ih

theorem optimizeOrderAssignment_sumAssigned (drivers : List Driver)
    (orders : List Order) (routes : List Route) (startTime : String)
    (maxH : ℚ) :
    sumAssigned (optimizeOrderAssignment drivers orders routes startTime maxH)
      ≤ orders.length := by
  unfold optimizeOrderAssignment
  have h := foldl_assignOrder_sumAssigned routes maxH (sortOrders orders)
    (drivers.map initAssignment)
  rw [sumAssigned_map_initAssignment, sortOrders_length] at h
  simpa using h

/-! ### Fuel-cost bucket partition -/

theorem processOrder_fuel_partition {routes : List Route} {acc : KPIAcc}
    {ao : AssignedOrder}
    (h : acc.lowTraffic + acc.mediumTraffic + acc.highTraffic
      = acc.totalFuelCost) :
    (processOrder routes acc ao).lowTraffic
      + (processOrder routes acc ao).mediumTraffic
      + (processOrder routes acc ao).highTraffic
      = (processOrder routes acc ao).totalFuelCost := by
  cases hfr : findRoute routes ao.ord.routeId with
  | none => simpa [processOrder, hfr] using h
  | some r =>
    cases htl : r.trafficLevel <;>
      by_cases hl : ao.isLate <;>
        simp [processOrder, hfr, hl, htl] <;> linarith

theorem aggregateKPIs_fuel_partition (assignments : List Assignment)
    (routes : List Route) :
    (aggregateKPIs assignments routes).lowTraffic
      + (aggregateKPIs assignments routes).mediumTraffic
      + (aggregateKPIs assignments routes).highTraffic
      = (aggregateKPIs assignments routes).totalFuelCost := by
  unfold aggregateKPIs
  refine foldl_preserve
    (P := fun (acc : KPIAcc) =>
      acc.lowTraffic + acc.mediumTraffic + acc.highTraffic = acc.totalFuelCost)
    ?_ _ _ (by norm_num [KPIAcc.init])
  intro acc a hacc
  exact foldl_preserve
    (P := fun (acc : KPIAcc) =>
      acc.lowTraffic + acc.mediumTraffic + acc.highTraffic = acc.totalFuelCost)
    (fun acc' ao h => processOrder_fuel_partition h) _ _ hacc

/-! ### JS rounding lemmas -/

theorem jsRound_bounds (x : ℚ) :
    x - 1/2 < (jsRound x : ℚ) ∧ (jsRound x : ℚ) ≤ x + 1/2 := by
  constructor
  · have := Int.sub_one_lt_floor (x + 1/2)
    unfold jsRound
    linarith
  · exact Int.floor_le (x + 1/2)

theorem jsRound_nonneg {x : ℚ} (h : 0 ≤ x) : 0 ≤ jsRound x := by
  unfold jsRound
  rw [Int.le_floor]
  linarith

theorem jsRound_le_of_le {x : ℚ} {n : ℤ} (h : x ≤ n) : jsRound x ≤ n := by
  unfold jsRound
  rw [Int.floor_le_iff]
  linarith

theorem jsRound_eq_zero_iff {x : ℚ} (hx : 0 ≤ x) :
    jsRound x = 0 ↔ x < 1/2 := by
  unfold jsRound
  rw [Int.floor_eq_iff]
  constructor
  · intro h; linarith [h.2]
  · intro h; exact ⟨by linarith, by linarith⟩

theorem round_three_split (a b c : ℚ) :
    |jsRound a + jsRound b + jsRound c - jsRound (a + b + c)| ≤ 1 := by
  have ha := jsRound_bounds a
  have hb := jsRound_bounds b
  have hc := jsRound_bounds c
  have hs := jsRound_bounds (a + b + c)
  have h2 : |jsRound a + jsRound b + jsRound c - jsRound (a + b + c)| < 2 := by
    have : |(jsRound a + jsRound b + jsRound c - jsRound (a + b + c) : ℚ)|
        < 2 := by
      rw [abs_lt]
      refine ⟨?_, ?_⟩ <;>
        linarith [ha.1, ha.2, hb.1, hb.2, hc.1, hc.2, hs.1, hs.2]
    exact_mod_cast (by push_cast at this ⊢; exact_mod_cast this :
      (|(jsRound a + jsRound b + jsRound c - jsRound (a + b + c) : ℤ)| : ℚ)
        < 2)
  omega

/-! ### Spec-side profit formula (for C2) -/

/-- The specification's per-order profit contribution: `valueRs`, minus the
flat 50 penalty when late, plus a 10% bonus when on time and `valueRs >
1000`, minus the route's fuel cost, floored at 0. -/
def specOrderProfit (ao : AssignedOrder) (r : Route) : ℚ :=
  max 0 (ao.ord.valueRs - (if ao.isLate then 50 else 0)
    + (if ao.isLate = false ∧ ao.ord.valueRs > 1000
       then ao.ord.valueRs * (1/10) else 0)
    - calculateFuelCost r)

/-- The specification's total profit before rounding: the sum of per-order
contributions over all committed orders whose route is present. -/
def specTotalProfitQ (assignments : List Assignment) (routes : List Route) :
    ℚ :=
  (assignments.map (fun a =>
    (a.assignedOrders.filterMap (fun ao =>
      (findRoute routes ao.ord.routeId).map (specOrderProfit ao))).sum)).sum

theorem processOrder_totalProfit (routes : List Route) (acc : KPIAcc)
    (ao : AssignedOrder) :
    (processOrder routes acc ao).totalProfit
      = acc.totalProfit + (match findRoute routes ao.ord.routeId with
          | none => 0
          | some r => specOrderProfit ao r) := by
  cases hfr : findRoute routes ao.ord.routeId with
  | none => simp [processOrder, hfr]
  | some r =>
    by_cases hl : ao.isLate <;>
      by_cases hv : ao.ord.valueRs > 1000 <;>
        simp [processOrder, specOrderProfit, hfr, hl, hv]

theorem foldl_processOrder_totalProfit (routes : List Route) :
    ∀ (l : List AssignedOrder) (acc : KPIAcc),
      (l.foldl (processOrder routes) acc).totalProfit
        = acc.totalProfit
          + (l.filterMap (fun ao =>
              (findRoute routes ao.ord.routeId).map (specOrderProfit ao))).sum := by
  intro l
  induction l with
  | nil => intro acc; simp
  | cons ao rest ih =>
    intro acc
    rw [List.foldl_cons, ih, processOrder_totalProfit]
    cases hfr : findRoute routes ao.ord.routeId with
    | none => simp [hfr]
    | some r => simp [hfr]; ring

theorem aggregateKPIs_totalProfit (assignments : List Assignment)
    (routes : List Route) :
    (aggregateKPIs assignments routes).totalProfit
      = specTotalProfitQ assignments routes := by
  unfold aggregateKPIs specTotalProfitQ
  suffices h : ∀ (l : List Assignment) (acc : KPIAcc),
      (l.foldl (fun acc a => a.assignedOrders.foldl (processOrder routes) acc)
        acc).totalProfit
        = acc.totalProfit + (l.map (fun a =>
            (a.assignedOrders.filterMap (fun ao =>
              (findRoute routes ao.ord.routeId).map (specOrderProfit ao))).sum)).sum by
    simpa [KPIAcc.init] using h assignments KPIAcc.init
  intro l
  induction l with
  | nil => intro acc; simp
  | cons a rest ih =>
    intro acc
    rw [List.foldl_cons, ih, foldl_processOrder_totalProfit]
    simp
    ring

/-! ### Planner output shape (for C8) -/

theorem assignOrder_map_driverId (routes : List Route) (maxH : ℚ)
    (s : List Assignment) (o : Order) :
    (assignOrder routes maxH s o).map Assignment.driverId
      = s.map Assignment.driverId := by
  cases hfr : findRoute routes o.routeId with
  | none => simp [assignOrder, hfr]
  | some r =>
    cases hbest : findBestDriver s o r maxH with
    | none => simp [assignOrder, hfr, hbest]
    | some i =>
      simp only [assignOrder, hfr, hbest]
      exact updateAt_map_eq Assignment.driverId (commitOrder o r)
        (fun a => rfl) i s

theorem optimizeOrderAssignment_driverIds (drivers : List Driver)
    (orders : List Order) (routes : List Route) (startTime : String)
    (maxH : ℚ) :
    (optimizeOrderAssignment drivers orders routes startTime maxH).map
      Assignment.driverId = drivers.map Driver.id := by
  unfold optimizeOrderAssignment
  refine foldl_preserve
    (P := fun (s : List Assignment) =>
      s.map Assignment.driverId = drivers.map Driver.id)
    (fun s o hP => by
      show (assignOrder routes maxH s o).map Assignment.driverId
        = drivers.map Driver.id
      rw [assignOrder_map_driverId]; exact hP) _ _ ?_
  show (drivers.map initAssignment).map Assignment.driverId
    = drivers.map Driver.id
  rw [List.map_map]
  rfl

/-! ### Claim theorems -/

/-- C1 (counterexample): the claimed single-ceiling formula
`ceil(baseTimeMin × trafficMultiplier × 1.3)` disagrees with the code on the
route with baseTimeMin = 1 and Medium traffic for a fatigued driver: the code
ceils the traffic product first (to 2) and then ceils 2 × 1.3 = 2.6 to 3,
while the claimed formula gives ceil(1.56) = 2. -/
theorem c1_counterexample :
    ¬ (calculateOrderTime ⟨1, 0, TrafficLevel.Medium, 1⟩ true
        = ⌈(1 : ℚ) * trafficMultiplier TrafficLevel.Medium * (13/10)⌉) := by
  have he : (⟨1, 0, TrafficLevel.Medium, 1⟩ : Route).getExpectedTime = 2 := by
    norm_num [Route.getExpectedTime, trafficMultiplier, Int.ceil_eq_iff]
  have h1 : calculateOrderTime ⟨1, 0, TrafficLevel.Medium, 1⟩ true = 3 := by
    norm_num [calculateOrderTime, he, Int.ceil_eq_iff]
  have h2 : (⌈(1 : ℚ) * trafficMultiplier TrafficLevel.Medium * (13/10)⌉ : ℤ)
      = 2 := by
    norm_num [trafficMultiplier, Int.ceil_eq_iff]
  rw [h1, h2]
  norm_num

/-- C1 (amended): the computed execution time applies `Math.ceil` twice:
first to baseTimeMin × trafficMultiplier (the route's expected time), then —
for a fatigued driver — again to that integer × 1.3; for a non-fatigued
driver it equals the claimed `ceil(baseTimeMin × multiplier × 1.0)`, and the
traffic multiplier is Low→1.0, Medium→1.2, High→1.5 as claimed. -/
theorem c1_execution_time (r : Route) (fat : Bool) :
    calculateOrderTime r fat
      = (if fat then
           ⌈(⌈r.baseTimeMin * trafficMultiplier r.trafficLevel⌉ : ℚ)
             * (13/10)⌉
         else ⌈r.baseTimeMin * trafficMultiplier r.trafficLevel⌉)
    ∧ calculateOrderTime r false
        = ⌈r.baseTimeMin * trafficMultiplier r.trafficLevel * 1⌉
    ∧ trafficMultiplier TrafficLevel.Low = 1
    ∧ trafficMultiplier TrafficLevel.Medium = 6/5
    ∧ trafficMultiplier TrafficLevel.High = 3/2 := by
  refine ⟨?_, ?_, rfl, rfl, rfl⟩
  · cases fat <;> simp [calculateOrderTime, Route.getExpectedTime]
  · simp [calculateOrderTime, Route.getExpectedTime]

/-- C4: for every planner output, onTimeDeliveries + lateDeliveries =
totalDeliveries, and totalDeliveries is at most the number of pending orders
given to the planner. -/
theorem c4_delivery_counts (drivers : List Driver) (orders : List Order)
    (routes : List Route) (startTime : String) (maxH : ℚ) :
    (calculateKPIs (optimizeOrderAssignment drivers orders routes startTime
        maxH) routes).onTimeDeliveries
      + (calculateKPIs (optimizeOrderAssignment drivers orders routes
          startTime maxH) routes).lateDeliveries
      = (calculateKPIs (optimizeOrderAssignment drivers orders routes
          startTime maxH) routes).totalDeliveries
    ∧ (calculateKPIs (optimizeOrderAssignment drivers orders routes startTime
          maxH) routes).totalDeliveries ≤ orders.length := by
  constructor
  · simpa [calculateKPIs] using
      aggregateKPIs_counts
        (optimizeOrderAssignment drivers orders routes startTime maxH) routes
  · have h2 := aggregateKPIs_total_le_sumAssigned
      (optimizeOrderAssignment drivers orders routes startTime maxH) routes
    have h3 := optimizeOrderAssignment_sumAssigned drivers orders routes
      startTime maxH
    simpa [calculateKPIs] using le_trans h2 h3

/-- C5: with a nonnegative requested bound (the invocation contract restricts
it to (0, 24]), every Assignment produced by the planner has totalHours ≤
maxHoursPerDriver: the bound holds initially and is preserved by every
commit, which is guarded by the feasibility check
totalHours + executionTime/60 ≤ maxHoursPerDriver. -/
theorem c5_hours_bound (drivers : List Driver) (orders : List Order)
    (routes : List Route) (startTime : String) (maxH : ℚ) (h : 0 ≤ maxH) :
    ∀ a ∈ optimizeOrderAssignment drivers orders routes startTime maxH,
      a.totalHours ≤ maxH :=
  optimizeOrderAssignment_hours h

/-- Witness for C5 at a concrete input. -/
theorem c5_hours_bound_witness :
    (0 : ℚ) ≤ 8
    ∧ ∀ a ∈ optimizeOrderAssignment [⟨1, "A", false⟩] [⟨1, 100, 1, 0⟩]
        [⟨1, 10, TrafficLevel.Medium, 60⟩] "09:00" 8,
        a.totalHours ≤ 8 :=
  ⟨by norm_num,
   c5_hours_bound [⟨1, "A", false⟩] [⟨1, 100, 1, 0⟩]
     [⟨1, 10, TrafficLevel.Medium, 60⟩] "09:00" 8 (by norm_num)⟩

/-- C6: the three rounded fuel-cost buckets sum to within 1 unit of the
once-rounded totalFuelCost: the full-precision buckets partition the
full-precision total, and three roundings can shift an integer total by at
most 1. -/
theorem c6_fuel_breakdown (assignments : List Assignment)
    (routes : List Route) :
    |(calculateKPIs assignments routes).lowTraffic
      + (calculateKPIs assignments routes).mediumTraffic
      + (calculateKPIs assignments routes).highTraffic
      - (calculateKPIs assignments routes).totalFuelCost| ≤ 1 := by
  have hpart := aggregateKPIs_fuel_partition assignments routes
  have hr := round_three_split (aggregateKPIs assignments routes).lowTraffic
    (aggregateKPIs assignments routes).mediumTraffic
    (aggregateKPIs assignments routes).highTraffic
  rw [hpart] at hr
  simpa [calculateKPIs] using hr

/-- C2: the reported totalProfit equals the once-rounded sum, over committed
orders whose route is present, of max(0, valueRs − 50 if late + 10% bonus if
on time and valueRs > 1000 − fuelCost), with no per-order rounding; an
on-time order with valueRs = 1500 contributes max(0, 1500 + 150 − fuelCost). -/
theorem c2_total_profit (assignments : List Assignment)
    (routes : List Route) :
    (calculateKPIs assignments routes).totalProfit
      = jsRound (specTotalProfitQ assignments routes)
    ∧ ∀ (ao : AssignedOrder) (r : Route), ao.isLate = false →
        ao.ord.valueRs = 1500 →
        specOrderProfit ao r = max 0 (1500 + 150 - calculateFuelCost r) := by
  constructor
  · simp [calculateKPIs, aggregateKPIs_totalProfit]
  · intro ao r hl hv
    simp [specOrderProfit, hl, hv]
    norm_num

/-- Witness for C2 at concrete inputs. -/
theorem c2_total_profit_witness :
    (calculateKPIs [] []).totalProfit = jsRound (specTotalProfitQ [] [])
    ∧ specOrderProfit ⟨⟨1, 1500, 1, 0⟩, 72, false⟩
        ⟨1, 10, TrafficLevel.Medium, 60⟩
        = max 0 (1500 + 150
            - calculateFuelCost ⟨1, 10, TrafficLevel.Medium, 60⟩) :=
  ⟨(c2_total_profit [] []).1,
   (c2_total_profit [] []).2 ⟨⟨1, 1500, 1, 0⟩, 72, false⟩
     ⟨1, 10, TrafficLevel.Medium, 60⟩ rfl rfl⟩

/-- C7: the engine takes the first `numberOfDrivers` available drivers; when
fewer are available it fails with an InsufficientDrivers error carrying the
actually-available count and produces no assignments or KPIs, and when the
counts are equal no such error is raised. -/
theorem c7_insufficient_drivers (availableDrivers : List Driver)
    (pendingOrders : List Order) (routes : List Route) (inputs : SimInputs) :
    (availableDrivers.length < inputs.numberOfDrivers →
      runSimulation availableDrivers pendingOrders routes inputs
        = .error (.insufficientDrivers availableDrivers.length
            inputs.numberOfDrivers))
    ∧ (availableDrivers.length = inputs.numberOfDrivers →
        ∃ res, runSimulation availableDrivers pendingOrders routes inputs
          = .ok res) := by
  constructor
  · intro h
    have hlen : (availableDrivers.take inputs.numberOfDrivers).length
        = availableDrivers.length := by
      rw [List.length_take]; omega
    simp [runSimulation, hlen, h]
  · intro h
    have hlen : (availableDrivers.take inputs.numberOfDrivers).length
        = inputs.numberOfDrivers := by
      rw [List.length_take]; omega
    refine ⟨(optimizeOrderAssignment
        (availableDrivers.take inputs.numberOfDrivers) pendingOrders routes
        inputs.startTime inputs.maxHoursPerDriver,
      calculateKPIs
        (optimizeOrderAssignment
          (availableDrivers.take inputs.numberOfDrivers) pendingOrders routes
          inputs.startTime inputs.maxHoursPerDriver) routes), ?_⟩
    simp [runSimulation, hlen]

/-- Witness for C7: one available driver, two requested fails with the
available count 1; one requested succeeds. -/
theorem c7_insufficient_drivers_witness :
    ([⟨1, "A", false⟩] : List Driver).length < 2
    ∧ runSimulation [⟨1, "A", false⟩] [] [] ⟨2, "09:00", 8⟩
        = .error (.insufficientDrivers 1 2)
    ∧ ∃ res, runSimulation [⟨1, "A", false⟩] [] [] ⟨1, "09:00", 8⟩
        = .ok res :=
  ⟨by norm_num,
   (c7_insufficient_drivers [⟨1, "A", false⟩] [] [] ⟨2, "09:00", 8⟩).1
     (by norm_num),
   (c7_insufficient_drivers [⟨1, "A", false⟩] [] [] ⟨1, "09:00", 8⟩).2 rfl⟩

/-- C8 (counterexample): the planner is not pure — `orders.sort(...)`
reorders the caller's pending-orders array in place, so after the call the
list [value 100, value 200] has become [value 200, value 100]. -/
theorem c8_counterexample :
    ordersAfterPlanning [⟨1, 100, 1, 0⟩, ⟨2, 200, 1, 0⟩]
      ≠ [⟨1, 100, 1, 0⟩, ⟨2, 200, 1, 0⟩] := by
  norm_num [ordersAfterPlanning, sortOrders, insertOrder, orderBefore]

/-- C8 (amended): the planner returns exactly one Assignment per input
driver, in input order (including drivers with no orders), and leaves the
driver list and route lookup untouched; but it sorts the caller's
pending-orders array in place, leaving it a permutation (the sorted
reordering) of its previous contents rather than unchanged. -/
theorem c8_planner_shape (drivers : List Driver) (orders : List Order)
    (routes : List Route) (startTime : String) (maxH : ℚ) :
    (optimizeOrderAssignment drivers orders routes startTime maxH).map
        Assignment.driverId = drivers.map Driver.id
    ∧ (optimizeOrderAssignment drivers orders routes startTime maxH).length
        = drivers.length
    ∧ (ordersAfterPlanning orders).Perm orders := by
  have hmap := optimizeOrderAssignment_driverIds drivers orders routes
    startTime maxH
  refine ⟨hmap, ?_, sortOrders_perm orders⟩
  have := congrArg List.length hmap
  simpa using this

/-- C3 (counterexample): a run whose single delivery is late (route base 60,
Medium traffic, non-fatigued driver: execution time 72 > 70) reports
efficiencyScore = 0 with totalDeliveries = 1, so "efficiencyScore equals 0
iff totalDeliveries == 0" is false. -/
theorem c3_counterexample :
    ¬ ((calculateKPIs (optimizeOrderAssignment [⟨1, "A", false⟩]
          [⟨1, 100, 1, 0⟩] [⟨1, 10, TrafficLevel.Medium, 60⟩] "09:00" 24)
          [⟨1, 10, TrafficLevel.Medium, 60⟩]).efficiencyScore = 0
        ↔ (calculateKPIs (optimizeOrderAssignment [⟨1, "A", false⟩]
            [⟨1, 100, 1, 0⟩] [⟨1, 10, TrafficLevel.Medium, 60⟩] "09:00" 24)
            [⟨1, 10, TrafficLevel.Medium, 60⟩]).totalDeliveries = 0) := by
  have h : (calculateKPIs (optimizeOrderAssignment [⟨1, "A", false⟩]
        [⟨1, 100, 1, 0⟩] [⟨1, 10, TrafficLevel.Medium, 60⟩] "09:00" 24)
        [⟨1, 10, TrafficLevel.Medium, 60⟩]).efficiencyScore = 0
      ∧ (calculateKPIs (optimizeOrderAssignment [⟨1, "A", false⟩]
          [⟨1, 100, 1, 0⟩] [⟨1, 10, TrafficLevel.Medium, 60⟩] "09:00" 24)
          [⟨1, 10, TrafficLevel.Medium, 60⟩]).totalDeliveries = 1 := by
    norm_num +decide [calculateKPIs, optimizeOrderAssignment, aggregateKPIs,
      processOrder, assignOrder, findRoute, findBestDriver, findBestAux,
      sortOrders, insertOrder, commitOrder, updateAt, initAssignment,
      calculateOrderTime, calculateAssignmentScore, isOrderLate,
      calculateFuelCost, Route.getExpectedTime, trafficMultiplier, jsRound,
      KPIAcc.init, Int.ceil_eq_iff, Int.floor_eq_iff]
  intro hiff
  have := hiff.mp h.1
  rw [h.2] at this
  exact absurd this (by norm_num)

/-- C3 (amended): efficiencyScore lies in [0, 100], equals
(onTime/total)×100 rounded to 2 decimals when totalDeliveries > 0 and 0 when
totalDeliveries = 0; but it equals 0 iff totalDeliveries = 0 OR
20000 × onTimeDeliveries < totalDeliveries (in particular whenever
onTimeDeliveries = 0, so an all-late run also scores 0). -/
theorem c3_efficiency_score (assignments : List Assignment)
    (routes : List Route) (K : KPIResult)
    (hK : K = calculateKPIs assignments routes) :
    0 ≤ K.efficiencyScore ∧ K.efficiencyScore ≤ 100
    ∧ (K.totalDeliveries = 0 → K.efficiencyScore = 0)
    ∧ (0 < K.totalDeliveries → K.efficiencyScore
        = (jsRound (((K.onTimeDeliveries : ℚ) / (K.totalDeliveries : ℚ))
            * 100 * 100) : ℚ) / 100)
    ∧ (K.efficiencyScore = 0
        ↔ (K.totalDeliveries = 0
            ∨ 20000 * K.onTimeDeliveries < K.totalDeliveries)) := by
  subst hK
  have hcounts := aggregateKPIs_counts assignments routes
  by_cases htot : (aggregateKPIs assignments routes).totalDeliveries = 0
  · have heff : (calculateKPIs assignments routes).efficiencyScore = 0 := by
      norm_num [calculateKPIs, htot, jsRound]
    refine ⟨by rw [heff], by rw [heff]; norm_num, fun _ => heff, ?_, ?_⟩
    · intro hpos
      simp [calculateKPIs, htot] at hpos
    · simp only [heff, calculateKPIs, htot]
      norm_num [jsRound, Int.floor_eq_iff]
  · have hTpos : 0 < (aggregateKPIs assignments routes).totalDeliveries :=
      Nat.pos_of_ne_zero htot
    have hOT : (aggregateKPIs assignments routes).onTimeDeliveries
        ≤ (aggregateKPIs assignments routes).totalDeliveries := by omega
    have hTQ : (0 : ℚ) < ((aggregateKPIs assignments routes).totalDeliveries
        : ℚ) := by exact_mod_cast hTpos
    have hx0 : (0 : ℚ)
        ≤ (((aggregateKPIs assignments routes).onTimeDeliveries : ℚ)
            / ((aggregateKPIs assignments routes).totalDeliveries : ℚ))
          * 100 := by positivity
    have hx100 : (((aggregateKPIs assignments routes).onTimeDeliveries : ℚ)
          / ((aggregateKPIs assignments routes).totalDeliveries : ℚ)) * 100
        ≤ 100 := by
      have hle : (((aggregateKPIs assignments routes).onTimeDeliveries : ℚ)
          / ((aggregateKPIs assignments routes).totalDeliveries : ℚ)) ≤ 1 :=
        div_le_one_of_le₀ (by exact_mod_cast hOT) hTQ.le
      linarith
    have hscore : (calculateKPIs assignments routes).efficiencyScore
        = (jsRound ((((aggregateKPIs assignments routes).onTimeDeliveries : ℚ)
            / ((aggregateKPIs assignments routes).totalDeliveries : ℚ))
            * 100 * 100) : ℚ) / 100 := by
      simp [calculateKPIs, hTpos]
    have hjn : 0 ≤ jsRound ((((aggregateKPIs assignments
        routes).onTimeDeliveries : ℚ)
          / ((aggregateKPIs assignments routes).totalDeliveries : ℚ))
          * 100 * 100) := jsRound_nonneg (by positivity)
    refine ⟨?_, ?_, ?_, ?_, ?_⟩
    · rw [hscore]
      positivity
    · rw [hscore]
      have hub : jsRound ((((aggregateKPIs assignments
          routes).onTimeDeliveries : ℚ)
            / ((aggregateKPIs assignments routes).totalDeliveries : ℚ))
            * 100 * 100) ≤ (10000 : ℤ) :=
        jsRound_le_of_le (by push_cast; linarith)
      rw [div_le_iff₀ (by norm_num : (0:ℚ) < 100)]
      calc (jsRound ((((aggregateKPIs assignments
            routes).onTimeDeliveries : ℚ)
              / ((aggregateKPIs assignments routes).totalDeliveries : ℚ))
              * 100 * 100) : ℚ)
          ≤ (10000 : ℚ) := by exact_mod_cast hub
        _ = 100 * 100 := by norm_num
    · intro h0
      exact absurd (by simpa [calculateKPIs] using h0) htot
    · intro _
      simpa [calculateKPIs] using hscore
    · rw [hscore]
      have hiff1 : (jsRound ((((aggregateKPIs assignments
          routes).onTimeDeliveries : ℚ)
            / ((aggregateKPIs assignments routes).totalDeliveries : ℚ))
            * 100 * 100) : ℚ) / 100 = 0
          ↔ jsRound ((((aggregateKPIs assignments
              routes).onTimeDeliveries : ℚ)
              / ((aggregateKPIs assignments routes).totalDeliveries : ℚ))
              * 100 * 100) = 0 := by
        rw [div_eq_zero_iff]
        norm_num
      have hiff2 : jsRound ((((aggregateKPIs assignments
          routes).onTimeDeliveries : ℚ)
            / ((aggregateKPIs assignments routes).totalDeliveries : ℚ))
            * 100 * 100) = 0
          ↔ 20000 * (aggregateKPIs assignments routes).onTimeDeliveries
            < (aggregateKPIs assignments routes).totalDeliveries := by
        rw [jsRound_eq_zero_iff (by positivity)]
        rw [div_mul_eq_mul_div, div_mul_eq_mul_div, div_lt_iff₀ hTQ]
        constructor
        · intro h
          exact_mod_cast (by push_cast at h ⊢; linarith :
            ((20000 * (aggregateKPIs assignments
              routes).onTimeDeliveries : ℕ) : ℚ)
              < ((aggregateKPIs assignments routes).totalDeliveries : ℚ))
        · intro h
          have hq : ((20000 * (aggregateKPIs assignments
              routes).onTimeDeliveries : ℕ) : ℚ)
              < ((aggregateKPIs assignments routes).totalDeliveries : ℚ) := by
            exact_mod_cast h
          push_cast at hq ⊢
          linarith
      rw [hiff1, hiff2]
      simp [calculateKPIs, htot]

/-- Witness for C3 at a concrete input. -/
theorem c3_efficiency_score_witness :
    0 ≤ (calculateKPIs [] []).efficiencyScore
    ∧ (calculateKPIs [] []).efficiencyScore ≤ 100
    ∧ ((calculateKPIs [] []).totalDeliveries = 0 →
        (calculateKPIs [] []).efficiencyScore = 0)
    ∧ (0 < (calculateKPIs [] []).totalDeliveries →
        (calculateKPIs [] []).efficiencyScore
          = (jsRound ((((calculateKPIs [] []).onTimeDeliveries : ℚ)
              / ((calculateKPIs [] []).totalDeliveries : ℚ))
              * 100 * 100) : ℚ) / 100)
    ∧ ((calculateKPIs [] []).efficiencyScore = 0
        ↔ ((calculateKPIs [] []).totalDeliveries = 0
            ∨ 20000 * (calculateKPIs [] []).onTimeDeliveries
              < (calculateKPIs [] []).totalDeliveries)) :=
  c3_efficiency_score [] [] (calculateKPIs [] []) rfl

/-- C9: when maxHoursPerDriver ≤ 24, every order whose route is in the
lookup and for which at least one driver passes the capacity check is
committed to some driver: a passing driver has totalHours ≤ 24, so its score
is at least 12 > −1 and the bestScore = −1 sentinel branch that would drop
the order is unreachable. -/
theorem c9_feasible_order_committed (assignments : List Assignment)
    (o : Order) (routes : List Route) (r : Route) (maxH : ℚ)
    (hmax : maxH ≤ 24) (hbase : 0 ≤ r.baseTimeMin)
    (hfr : findRoute routes o.routeId = some r)
    (hex : ∃ a ∈ assignments, passesCheck r maxH a) :
    (findBestDriver assignments o r maxH).isSome
    ∧ sumAssigned (assignOrder routes maxH assignments o)
        = sumAssigned assignments + 1 := by
  have hscore : ∀ a ∈ assignments, passesCheck r maxH a →
      -1 < calculateAssignmentScore a o r := by
    intro a _ hp
    have ht : (0 : ℚ) ≤ (calculateOrderTime r a.isFatigued : ℚ) := by
      exact_mod_cast calculateOrderTime_nonneg hbase a.isFatigued
    have hdiv : (0 : ℚ) ≤ (calculateOrderTime r a.isFatigued : ℚ) / 60 :=
      div_nonneg ht (by norm_num)
    have h24 : a.totalHours ≤ 24 := by
      have hcheck : a.totalHours
          + (calculateOrderTime r a.isFatigued : ℚ) / 60 ≤ maxH := hp
      linarith
    exact score_gt_neg_one h24
  have hsome : (findBestDriver assignments o r maxH).isSome := by
    rcases hex with ⟨a, ha, hp⟩
    exact findBestAux_isSome (fun _ => rfl) ⟨a, ha, hp, hscore a ha hp⟩
  refine ⟨hsome, ?_⟩
  rcases Option.isSome_iff_exists.mp hsome with ⟨i, hi⟩
  rcases findBestAux_some hi with hnone | ⟨k, hk, hik, hp⟩
  · exact absurd hnone (by simp)
  · have hik0 : i = k := by omega
    subst hik0
    simp only [assignOrder, hfr, hi, sumAssigned]
    exact sum_map_updateAt_eq _ _ (fun a => commitOrder_length o r a) hk

/-- Witness for C9 at a concrete input: one idle non-fatigued driver, one
order on a Medium-traffic route with base time 60 (execution time 72
minutes), bound 24 hours. -/
theorem c9_feasible_order_committed_witness :
    (24 : ℚ) ≤ 24
    ∧ (0 : ℚ) ≤ (⟨1, 10, TrafficLevel.Medium, 60⟩ : Route).baseTimeMin
    ∧ findRoute [⟨1, 10, TrafficLevel.Medium, 60⟩]
        (⟨1, 100, 1, 0⟩ : Order).routeId
        = some ⟨1, 10, TrafficLevel.Medium, 60⟩
    ∧ (∃ a ∈ [(⟨1, "A", [], 0, false⟩ : Assignment)],
        passesCheck ⟨1, 10, TrafficLevel.Medium, 60⟩ 24 a)
    ∧ (findBestDriver [⟨1, "A", [], 0, false⟩] ⟨1, 100, 1, 0⟩
        ⟨1, 10, TrafficLevel.Medium, 60⟩ 24).isSome
    ∧ sumAssigned (assignOrder [⟨1, 10, TrafficLevel.Medium, 60⟩] 24
        [⟨1, "A", [], 0, false⟩] ⟨1, 100, 1, 0⟩)
        = sumAssigned [⟨1, "A", [], 0, false⟩] + 1 := by
  have h72 : calculateOrderTime ⟨1, 10, TrafficLevel.Medium, 60⟩ false
      = 72 := by
    norm_num [calculateOrderTime, Route.getExpectedTime, trafficMultiplier,
      Int.ceil_eq_iff]
  have hfr : findRoute [(⟨1, 10, TrafficLevel.Medium, 60⟩ : Route)]
      (⟨1, 100, 1, 0⟩ : Order).routeId
      = some ⟨1, 10, TrafficLevel.Medium, 60⟩ := rfl
  have hex : ∃ a ∈ [(⟨1, "A", [], 0, false⟩ : Assignment)],
      passesCheck ⟨1, 10, TrafficLevel.Medium, 60⟩ 24 a := by
    refine ⟨⟨1, "A", [], 0, false⟩, by simp, ?_⟩
    show (0 : ℚ) + (calculateOrderTime ⟨1, 10, TrafficLevel.Medium, 60⟩ false
      : ℚ) / 60 ≤ 24
    rw [h72]
    norm_num
  have h := c9_feasible_order_committed [⟨1, "A", [], 0, false⟩]
    ⟨1, 100, 1, 0⟩ [⟨1, 10, TrafficLevel.Medium, 60⟩]
    ⟨1, 10, TrafficLevel.Medium, 60⟩ 24 (by norm_num) (by norm_num) hfr hex
  exact ⟨by norm_num, by norm_num, hfr, hex, h.1, h.2⟩

/-- C10: two planner invocations differing only in the (well-formed) shift
start time produce identical assignments and identical KPIs: the start time
is converted to minutes but the value is never used. -/
theorem c10_start_time_unused (drivers : List Driver) (orders : List Order)
    (routes : List Route) (maxH : ℚ) (t1 t2 : String)
    (_h1 : ValidTimeString t1) (_h2 : ValidTimeString t2) :
    optimizeOrderAssignment drivers orders routes t1 maxH
      = optimizeOrderAssignment drivers orders routes t2 maxH
    ∧ calculateKPIs (optimizeOrderAssignment drivers orders routes t1 maxH)
        routes
      = calculateKPIs (optimizeOrderAssignment drivers orders routes t2 maxH)
        routes := by
  have h : optimizeOrderAssignment drivers orders routes t1 maxH
      = optimizeOrderAssignment drivers orders routes t2 maxH := rfl
  exact ⟨h, by rw [h]⟩

/-- Witness for C10 at two concrete well-formed start times. -/
theorem c10_start_time_unused_witness :
    ValidTimeString "09:00" ∧ ValidTimeString "18:30"
    ∧ optimizeOrderAssignment [] [] [] "09:00" 8
      = optimizeOrderAssignment [] [] [] "18:30" 8
    ∧ calculateKPIs (optimizeOrderAssignment [] [] [] "09:00" 8) []
      = calculateKPIs (optimizeOrderAssignment [] [] [] "18:30" 8) [] :=
  ⟨rfl, rfl,
   (c10_start_time_unused [] [] [] 8 "09:00" "18:30" rfl rfl).1,
   (c10_start_time_unused [] [] [] 8 "09:00" "18:30" rfl rfl).2⟩

end GreenCart
